import Mathlib

/-!
Verification of the status-acquisition pipeline of `isAWSback`
(`src/server/functions/aws-health.ts`): JSON event normalization, the
verdict engine, the resilient JSON parser with its repair attempts, and
the cache / fetch orchestrator.

Modelling conventions:
* JSON values are the inductive `JValue`; JSON numbers are restricted to
  integers (`Int`), which covers every value the health feed and the
  specification exercise.
* JavaScript property access, truthiness (`||` defaulting) and
  `parseInt(s, 10)` are embedded explicitly (`rawPropNT`, `truthy`,
  `propOrDefault`, `jsParseInt`).
* Property access on `null` throws a `TypeError` in JavaScript; the
  normalizer is therefore embedded in the `Except String` monad.
* Wall-clock timestamps (`Date.now()`, `new Date().toISOString()`)
  are abstracted as `Nat` values threaded through the functions.
-/

/-- A JSON value as produced by `JSON.parse`.  Object fields are kept in
insertion order with unique keys (duplicate keys are resolved last-wins
at parse time, as in JavaScript). -/
inductive JValue where
  | jnull : JValue
  | jbool : Bool → JValue
  | jnum : Int → JValue
  | jstr : String → JValue
  | jarr : List JValue → JValue
  | jobj : List (String × JValue) → JValue

mutual

/-- Structural equality on `JValue`, matching JavaScript `SameValueZero`
on the fragment we model (no `NaN`, no `-0`). -/
def beqJ : JValue → JValue → Bool
  | .jnull, .jnull => true
  | .jbool a, .jbool b => a == b
  | .jnum a, .jnum b => a == b
  | .jstr a, .jstr b => a == b
  | .jarr a, .jarr b => beqJList a b
  | .jobj a, .jobj b => beqJFields a b
  | _, _ => false

/-- Elementwise `beqJ` on arrays. -/
def beqJList : List JValue → List JValue → Bool
  | [], [] => true
  | x :: xs, y :: ys => beqJ x y && beqJList xs ys
  | _, _ => false

/-- Fieldwise `beqJ` on objects. -/
def beqJFields : List (String × JValue) → List (String × JValue) → Bool
  | [], [] => true
  | (k1, v1) :: xs, (k2, v2) :: ys => k1 == k2 && beqJ v1 v2 && beqJFields xs ys
  | _, _ => false

end

instance : BEq JValue := ⟨beqJ⟩

/-- JavaScript truthiness of a JSON value: `null`, `false`, `0` and the
empty string are falsy; every array and object is truthy. -/
def truthy : JValue → Bool
  | .jnull => false
  | .jbool b => b
  | .jnum n => n != 0
  | .jstr s => s != ""
  | .jarr _ => true
  | .jobj _ => true

/-- Key lookup in an object's field list (fields have unique keys). -/
def lookupField (fs : List (String × JValue)) (k : String) : Option JValue :=
  match fs with
  | [] => none
  | (k1, v) :: rest => if k1 = k then some v else lookupField rest k

/-- Non-throwing property access `v[k]`: `none` models JavaScript
`undefined`.  Primitives (numbers, strings, booleans) box to objects
without these properties; arrays have no such named property either.
Access on `null` throws in JavaScript — callers that can receive `null`
must test for it first. -/
def rawPropNT (v : JValue) (k : String) : Option JValue :=
  match v with
  | .jobj fs => lookupField fs k
  | _ => none

/-- Embedding of the JavaScript defaulting idiom `v[k] || d`:
the property value if it is present and truthy, else the default. -/
def propOrDefault (v : JValue) (k : String) (d : JValue) : JValue :=
  match rawPropNT v k with
  | some x => if truthy x then x else d
  | none => d

/-- JavaScript whitespace accepted by `parseInt`. -/
def isJsWs (c : Char) : Bool :=
  c == ' ' || c == '\t' || c == '\n' || c == '\r'

/-- Value of a maximal leading run of decimal digits; `none` when the
run is empty (which makes `parseInt` return `NaN`). -/
def digitsVal (cs : List Char) : Option Nat :=
  let ds := cs.takeWhile Char.isDigit
  if ds.isEmpty then none
  else some (ds.foldl (fun acc c => acc * 10 + (c.toNat - '0'.toNat)) 0)

/-- Embedding of `parseInt(s, 10)`: skip leading whitespace, optional
sign, then the maximal decimal-digit run; `none` models `NaN`. -/
def jsParseInt (s : String) : Option Int :=
  match s.data.dropWhile isJsWs with
  | '-' :: rest => (digitsVal rest).map (fun n => -(n : Int))
  | '+' :: rest => (digitsVal rest).map (fun n => (n : Int))
  | cs => (digitsVal cs).map (fun n => (n : Int))

/-- `Object.entries(v)` as used on the `impacted_services` value after
the guard `v && typeof v === 'object'`: fields of an object, index-keyed
elements of an array, nothing otherwise. -/
def svcEntriesRaw (v : JValue) : List (String × JValue) :=
  match rawPropNT v "impacted_services" with
  | some (.jobj fs) => fs
  | some (.jarr xs) => (xs.enum.map (fun p => (toString p.1, p.2)))
  | _ => []

/-- One normalized `impacted_services` entry (`service_name`, `current`,
`max` each defaulted with `|| ''`, so they stay arbitrary truthy JSON
values when present). -/
structure NService where
  service_name : JValue
  current : JValue
  max : JValue

/-- One normalized `event_log` entry. -/
structure NLogEntry where
  summary : JValue
  message : JValue
  status : JValue
  timestamp : JValue

/-- A fully populated normalized event (`serializableEvents` element). -/
structure NEvent where
  date : JValue
  arn : JValue
  region_name : JValue
  status : JValue
  service : JValue
  service_name : JValue
  summary : JValue
  event_log : List NLogEntry
  impacted_services : List (String × NService)

/-- Normalization of one `event_log` entry; accessing a property of
`null` throws. -/
def normalizeLog (l : JValue) : Except String NLogEntry :=
  match l with
  | .jnull => .error "TypeError: null is not an object"
  | _ => .ok
      { summary := propOrDefault l "summary" (.jstr "")
        message := propOrDefault l "message" (.jstr "")
        status := propOrDefault l "status" (.jnum 0)
        timestamp := propOrDefault l "timestamp" (.jnum 0) }

/-- Normalization of one `impacted_services` value. -/
def normalizeService (sv : JValue) : Except String NService :=
  match sv with
  | .jnull => .error "TypeError: null is not an object"
  | _ => .ok
      { service_name := propOrDefault sv "service_name" (.jstr "")
        current := propOrDefault sv "current" (.jstr "")
        max := propOrDefault sv "max" (.jstr "") }

/-- `event_log.map(...)` over a raw log array. -/
def normalizeLogs : List JValue → Except String (List NLogEntry)
  | [] => .ok []
  | l :: rest =>
    match normalizeLog l with
    | .error e => .error e
    | .ok n =>
      match normalizeLogs rest with
      | .error e => .error e
      | .ok ns => .ok (n :: ns)

/-- `Object.entries(impacted_services).map(...)`. -/
def normalizeServices : List (String × JValue) → Except String (List (String × NService))
  | [] => .ok []
  | (k, sv) :: rest =>
    match normalizeService sv with
    | .error e => .error e
    | .ok ns =>
      match normalizeServices rest with
      | .error e => .error e
      | .ok nrest => .ok ((k, ns) :: nrest)

/-- `Array.isArray(event.event_log) ? event.event_log.map(...) : []`. -/
def normalizeEventLog (v : JValue) : Except String (List NLogEntry) :=
  match rawPropNT v "event_log" with
  | some (.jarr xs) => normalizeLogs xs
  | _ => .ok []

/-- Normalization body shared by every non-`null` element: default all
top-level fields, map `event_log`, map `impacted_services`. -/
def normalizeEventCore (v : JValue) : Except String NEvent :=
  match normalizeEventLog v with
    | .error e => .error e
    | .ok el =>
      match normalizeServices (svcEntriesRaw v) with
      | .error e => .error e
      | .ok isv => .ok
          { date := propOrDefault v "date" (.jstr "")
            arn := propOrDefault v "arn" (.jstr "")
            region_name := propOrDefault v "region_name" (.jstr "")
            status := propOrDefault v "status" (.jstr "")
            service := propOrDefault v "service" (.jstr "")
            service_name := propOrDefault v "service_name" (.jstr "")
            summary := propOrDefault v "summary" (.jstr "")
            event_log := el
            impacted_services := isv }

/-- Normalization of one parsed array element (`events.map` body,
lines 363–389 of the source): property access on a `null` element
throws; any other value is coerced by the `|| default` idiom. -/
def normalizeEvent (v : JValue) : Except String NEvent :=
  match v with
  | .jnull => .error "TypeError: null is not an object"
  | _ => normalizeEventCore v

/-- `events.map(event => ...)` — the whole batch normalizes left to
right; the first `TypeError` aborts the map. -/
def serializeEvents : List JValue → Except String (List NEvent)
  | [] => .ok []
  | v :: vs =>
    match normalizeEvent v with
    | .error e => .error e
    | .ok n =>
      match serializeEvents vs with
      | .error e => .error e
      | .ok ns => .ok (n :: ns)

/-- The tri-state verdict status: `yes` = Operational, `no` = Degraded,
`unknown` = Unknown. -/
inductive Status where
  | yes : Status
  | no : Status
  | unknown : Status
deriving DecidableEq, Repr

/-- The `AWSHealthResponse` verdict value. -/
structure AWSHealthResponse where
  status : Status
  lastUpdated : Nat
  details : String
deriving DecidableEq, Repr

/-- `Set.add`: append if not already present (insertion order kept). -/
def insertUniq (acc : List JValue) (x : JValue) : List JValue :=
  if acc.contains x then acc else acc ++ [x]

/-- Whether a normalized `impacted_services` entry contributes to the
impacted set: truthy `service_name`, string `current` whose
`parseInt(·, 10)` value is a number strictly greater than zero. -/
def impactingB (ns : NService) : Bool :=
  truthy ns.service_name &&
    (match ns.current with
     | .jstr s =>
        match jsParseInt s with
        | some m => decide (0 < m)
        | none => false
     | _ => false)

/-- Inner `Object.entries(...).forEach` of the verdict computation:
fold the impacted-service set over one event's entries. -/
def collectEvent (acc : List JValue) : List (String × NService) → List JValue
  | [] => acc
  | (_, ns) :: rest =>
      collectEvent (if impactingB ns then insertUniq acc ns.service_name else acc) rest

/-- Outer `events.forEach` building the distinct impacted-service set. -/
def collectNames (acc : List JValue) : List NEvent → List JValue
  | [] => acc
  | e :: es => collectNames (collectEvent acc e.impacted_services) es

/-- The distinct impacted-service names (`impactedServicesSet`). -/
def impactedNames (events : List NEvent) : List JValue :=
  collectNames [] events

/-- Verdict engine (source lines 392–454): empty batch or no impacted
services gives Operational, otherwise Degraded with the pluralized
count message. -/
def computeVerdict (events : List NEvent) (now : Nat) : AWSHealthResponse :=
  if events.isEmpty then
    { status := .yes, lastUpdated := now, details := "All AWS services operational" }
  else
    let impactedCount := (impactedNames events).length
    if 0 < impactedCount then
      { status := .no
        lastUpdated := now
        details := "AWS is experiencing issues - " ++ toString impactedCount ++
          " service" ++ (if impactedCount != 1 then "s" else "") ++ " impacted" }
    else
      { status := .yes, lastUpdated := now, details := "All AWS services operational" }

/-- Skip JSON whitespace. -/
def skipWs : List Char → List Char
  | [] => []
  | c :: cs => if isJsWs c then skipWs cs else c :: cs

/-- Hexadecimal digit value. -/
def hexVal (c : Char) : Option Nat :=
  if '0' ≤ c ∧ c ≤ '9' then some (c.toNat - '0'.toNat)
  else if 'a' ≤ c ∧ c ≤ 'f' then some (c.toNat - 'a'.toNat + 10)
  else if 'A' ≤ c ∧ c ≤ 'F' then some (c.toNat - 'A'.toNat + 10)
  else none

/-- Body of a JSON string literal (after the opening quote), with the
standard escapes. -/
def parseStrAux (acc : List Char) : List Char → Except String (String × List Char)
  | [] => .error "Unterminated string"
  | '"' :: rest => .ok (⟨acc.reverse⟩, rest)
  | '\\' :: rest =>
    match rest with
    | [] => .error "Unterminated string"
    | e :: rest2 =>
      if e = '"' then parseStrAux ('"' :: acc) rest2
      else if e = '\\' then parseStrAux ('\\' :: acc) rest2
      else if e = '/' then parseStrAux ('/' :: acc) rest2
      else if e = 'b' then parseStrAux ('\x08' :: acc) rest2
      else if e = 'f' then parseStrAux ('\x0C' :: acc) rest2
      else if e = 'n' then parseStrAux ('\n' :: acc) rest2
      else if e = 'r' then parseStrAux ('\r' :: acc) rest2
      else if e = 't' then parseStrAux ('\t' :: acc) rest2
      else if e = 'u' then
        match rest2 with
        | a :: b :: c :: d :: rest3 =>
          match hexVal a, hexVal b, hexVal c, hexVal d with
          | some ha, some hb, some hc, some hd =>
              parseStrAux (Char.ofNat (((ha * 16 + hb) * 16 + hc) * 16 + hd) :: acc) rest3
          | _, _, _, _ => .error "Invalid unicode escape"
        | _ => .error "Invalid unicode escape"
      else .error "Invalid escape character"
  | c :: rest => parseStrAux (c :: acc) rest

/-- Last-wins insertion of an object field, keeping the position of the
first occurrence of the key (JavaScript object semantics). -/
def insertKV : List (String × JValue) → String → JValue → List (String × JValue)
  | [], k, v => [(k, v)]
  | (k1, v1) :: rest, k, v =>
      if k1 = k then (k1, v) :: rest else (k1, v1) :: insertKV rest k v

mutual

/-- Fuel-indexed recursive-descent JSON value parser.  Error messages
follow the JavaScriptCore format the source code's repair logic sniffs
(an impossible leading character reports `Unrecognized token 'c'`).
Numbers are restricted to integers (see the header note). -/
def parseVal : Nat → List Char → Except String (JValue × List Char)
  | 0, _ => .error "JSON nesting too deep"
  | fuel + 1, cs =>
    match skipWs cs with
    | [] => .error "Unexpected EOF"
    | c :: rest =>
      if c = '[' then
        match skipWs rest with
        | ']' :: rest2 => .ok (.jarr [], rest2)
        | rest2 => parseArrItems fuel rest2 []
      else if c = '{' then
        match skipWs rest with
        | '}' :: rest2 => .ok (.jobj [], rest2)
        | rest2 => parseObjItems fuel rest2 []
      else if c = '"' then
        match parseStrAux [] rest with
        | .ok (s, rest2) => .ok (.jstr s, rest2)
        | .error e => .error e
      else if c = 'n' then
        match rest with
        | 'u' :: 'l' :: 'l' :: rest2 => .ok (.jnull, rest2)
        | _ => .error "Unexpected identifier"
      else if c = 't' then
        match rest with
        | 'r' :: 'u' :: 'e' :: rest2 => .ok (.jbool true, rest2)
        | _ => .error "Unexpected identifier"
      else if c = 'f' then
        match rest with
        | 'a' :: 'l' :: 's' :: 'e' :: rest2 => .ok (.jbool false, rest2)
        | _ => .error "Unexpected identifier"
      else if c = '-' then
        match digitsVal rest with
        | some n => .ok (.jnum (-(n : Int)), rest.dropWhile Char.isDigit)
        | none => .error "No number after minus sign"
      else if c.isDigit then
        match digitsVal (c :: rest) with
        | some n => .ok (.jnum (n : Int), (c :: rest).dropWhile Char.isDigit)
        | none => .error "Unexpected EOF"
      else
        .error ("Unrecognized token '" ++ String.singleton c ++ "'")

/-- Comma-separated array items (after at least one item is known to
follow). -/
def parseArrItems : Nat → List Char → List JValue → Except String (JValue × List Char)
  | 0, _, _ => .error "JSON nesting too deep"
  | fuel + 1, cs, acc =>
    match parseVal fuel cs with
    | .error e => .error e
    | .ok (v, rest) =>
      match skipWs rest with
      | ',' :: rest2 => parseArrItems fuel rest2 (v :: acc)
      | ']' :: rest2 => .ok (.jarr (v :: acc).reverse, rest2)
      | _ => .error "Expected ] or , after array element"

/-- Comma-separated object members (after at least one member is known
to follow). -/
def parseObjItems : Nat → List Char → List (String × JValue) → Except String (JValue × List Char)
  | 0, _, _ => .error "JSON nesting too deep"
  | fuel + 1, cs, acc =>
    match skipWs cs with
    | '"' :: rest =>
      (match parseStrAux [] rest with
       | .error e => .error e
       | .ok (k, rest2) =>
         match skipWs rest2 with
         | ':' :: rest3 =>
           (match parseVal fuel rest3 with
            | .error e => .error e
            | .ok (v, rest4) =>
              match skipWs rest4 with
              | ',' :: rest5 => parseObjItems fuel rest5 (insertKV acc k v)
              | '}' :: rest5 => .ok (.jobj (insertKV acc k v), rest5)
              | _ => .error "Expected \x7d or , after object member")
         | _ => .error "Expected : after object key")
    | _ => .error "Expected string key in object"

end

/-- Embedding of `JSON.parse` over the modelled JSON fragment: a value
followed only by whitespace. -/
def jsonParse (text : String) : Except String JValue :=
  match parseVal (2 * text.length + 8) text.data with
  | .error e => .error e
  | .ok (v, rest) =>
    if (skipWs rest).isEmpty then .ok v
    else .error "Unexpected non-whitespace character after JSON data"

/-- Drop an expected literal character sequence, returning the
remainder on success. -/
def dropLit : List Char → List Char → Option (List Char)
  | [], cs => some cs
  | _ :: _, [] => none
  | l :: ls, c :: cs => if c = l then dropLit ls cs else none

/-- Scan for the pattern of the source's regex
`/Unrecognized token '(.)'/` and return the captured character. -/
def findTok : List Char → Option Char
  | [] => none
  | c :: cs =>
    match dropLit "Unrecognized token '".data (c :: cs) with
    | some (x :: q :: _) =>
        if q = '\'' ∧ x ≠ '\n' then some x else findTok cs
    | _ => findTok cs

/-- `errorMsg.match(/Unrecognized token '(.)'/)` from the source. -/
def matchUnrecognized (msg : String) : Option Char :=
  findTok msg.data

/-- `text.replace(new RegExp(escaped(c), 'g'), '')`: remove every
occurrence of the character. -/
def removeChar (text : String) (c : Char) : String :=
  ⟨text.data.filter (fun x => x ≠ c)⟩

/-- First index of a character. -/
def firstIdxOf (c : Char) : List Char → Option Nat
  | [] => none
  | x :: xs => if x = c then some 0 else (firstIdxOf c xs).map (· + 1)

/-- Last index of a character. -/
def lastIdxOf (c : Char) (cs : List Char) : Option Nat :=
  (cs.enum.filterMap (fun p => if p.2 = c then some p.1 else none)).getLast?

/-- `cleanText.match(/\[[\s\S]*\]/)`: the greedy substring from the
first opening bracket to the last closing bracket, when one exists. -/
def extractArray (s : String) : Option String :=
  match firstIdxOf '[' s.data, lastIdxOf ']' s.data with
  | some i, some j => if i < j then some ⟨(s.data.drop i).take (j - i + 1)⟩ else none
  | _, _ => none

/-- The resilient parse of source lines 291–347: direct parse; on
failure, if the error message names an unrecognized token, remove that
character everywhere and retry, then try the extracted bracket
substring; any final failure carries the original error message.  When
the error message does not name a token, the repair attempts are
skipped entirely. -/
def repairParse (cleanText : String) : Except String JValue :=
  match jsonParse cleanText with
  | .ok v => .ok v
  | .error errorMsg =>
    match matchUnrecognized errorMsg with
    | some badChar =>
      (match jsonParse (removeChar cleanText badChar) with
       | .ok v => .ok v
       | .error _ =>
         match extractArray cleanText with
         | some sub =>
           (match jsonParse sub with
            | .ok v => .ok v
            | .error _ => .error ("Failed to parse JSON: " ++ errorMsg))
         | none => .error ("Failed to parse JSON: " ++ errorMsg))
    | none => .error ("Failed to parse JSON: " ++ errorMsg)

/-- Parse stage plus the array validation of source lines 349–358. -/
def parseEventsArray (cleanText : String) : Except String (List JValue) :=
  match repairParse cleanText with
  | .error e => .error e
  | .ok (.jarr xs) => .ok xs
  | .ok _ => .error "Expected array response from AWS Health API"

/-- The module-level `cachedStatus` record. -/
structure CacheEntry where
  status : Status
  lastUpdated : Nat
  details : String
  timestamp : Nat
deriving DecidableEq, Repr

/-- `CACHE_DURATION` (milliseconds). -/
def CACHE_DURATION : Nat := 10000

/-- Outcome of the network stage of one fetch cycle: either the
sanitized response text was obtained, or the attempt failed before
producing text (network error, abort timeout, non-2xx status, empty
body), with the thrown error's message. -/
inductive FetchOutcome where
  | success : String → FetchOutcome
  | failure : String → FetchOutcome

/-- The `catch` block of `fetchAWSHealthStatus` (source lines 455–480):
serve the cached verdict's fields if a cache entry exists, otherwise a
synthesized Unknown verdict carrying the failure reason. -/
def fetchFallback (cached : Option CacheEntry) (msg : String) (now : Nat) : AWSHealthResponse :=
  match cached with
  | some c => { status := c.status, lastUpdated := c.lastUpdated, details := c.details }
  | none =>
      { status := .unknown
        lastUpdated := now
        details := "Unable to fetch AWS health status: " ++ msg }

/-- One fetch cycle (`fetchAWSHealthStatus`): parse the obtained text,
normalize, and run the verdict engine; every failure (network, parse,
non-array payload, normalization `TypeError`) lands in the fallback. -/
def fetchAWSHealthStatus (cached : Option CacheEntry) (outcome : FetchOutcome) (now : Nat) :
    AWSHealthResponse :=
  match outcome with
  | .failure msg => fetchFallback cached msg now
  | .success cleanText =>
    match parseEventsArray cleanText with
    | .error msg => fetchFallback cached msg now
    | .ok events =>
      match serializeEvents events with
      | .error msg => fetchFallback cached msg now
      | .ok ne => computeVerdict ne now

/-- Whether a fetch cycle fails at some stage (so that the `catch`
block of `fetchAWSHealthStatus` runs). -/
def fetchCycleFails (outcome : FetchOutcome) : Bool :=
  match outcome with
  | .failure _ => true
  | .success cleanText =>
    match parseEventsArray cleanText with
    | .error _ => true
    | .ok events => !(serializeEvents events).isOk

/-- Result of one `getAWSHealthStatusFn` invocation: the returned
verdict, the cache state after the call, and whether a network fetch
was performed. -/
structure CallResult where
  resp : AWSHealthResponse
  cache : Option CacheEntry
  didFetch : Bool
deriving DecidableEq, Repr

/-- The `getAWSHealthStatusFn` handler (source lines 487–544): serve a
cache entry younger than `CACHE_DURATION` unchanged without fetching;
otherwise run a fetch cycle and unconditionally overwrite the cache
with the returned verdict, stamped with the call's start time. -/
def getStatus (cache : Option CacheEntry) (now : Nat) (outcome : FetchOutcome) : CallResult :=
  match cache with
  | some c =>
    if now - c.timestamp < CACHE_DURATION then
      { resp := { status := c.status, lastUpdated := c.lastUpdated, details := c.details }
        cache := some c
        didFetch := false }
    else
      let h := fetchAWSHealthStatus (some c) outcome now
      { resp := h
        cache := some
          { status := h.status, lastUpdated := h.lastUpdated, details := h.details,
            timestamp := now }
        didFetch := true }
  | none =>
    let h := fetchAWSHealthStatus none outcome now
    { resp := h
      cache := some
        { status := h.status, lastUpdated := h.lastUpdated, details := h.details,
          timestamp := now }
      didFetch := true }

/-- Phases of one concurrent `getStatus` call: the synchronous
cache check (which either answers from a fresh cache or starts a
network fetch), and the resumption after the fetch settles (verdict or
fallback computed against the cache as it then stands, followed by the
unconditional cache write). -/
inductive Phase where
  | check : Phase
  | complete : Phase

/-- Shared-state view of the server process while several
`getStatus` calls are in flight. -/
structure Sys where
  cache : Option CacheEntry
  inflight : List Nat
  fetchCount : Nat
  results : List (Nat × AWSHealthResponse)

/-- One scheduler step: caller `i` performs its `check` or its
`complete` phase.  The two phases are the only atomic sections of the
handler; between a caller's check and its completion, any other caller
may run (JavaScript interleaves at every `await`). -/
def stepCheck (t : Nat) (s : Sys) (i : Nat) : Sys :=
  match s.cache with
  | some c =>
    if t - c.timestamp < CACHE_DURATION then
      let r : AWSHealthResponse :=
        { status := c.status, lastUpdated := c.lastUpdated, details := c.details }
      { s with results := (i, r) :: s.results }
    else
      { s with inflight := i :: s.inflight, fetchCount := s.fetchCount + 1 }
  | none => { s with inflight := i :: s.inflight, fetchCount := s.fetchCount + 1 }

/-- Resumption of caller `i` after its network fetch settles. -/
def stepComplete (t : Nat) (outcome : Nat → FetchOutcome) (s : Sys) (i : Nat) : Sys :=
  if s.inflight.contains i then
    let h := fetchAWSHealthStatus s.cache (outcome i) t
    let e : CacheEntry :=
      { status := h.status, lastUpdated := h.lastUpdated, details := h.details,
        timestamp := t }
    { cache := some e
      inflight := s.inflight.filter (fun j => j ≠ i)
      fetchCount := s.fetchCount
      results := (i, h) :: s.results }
  else s

/-- Dispatch one scheduler event. -/
def stepSys (t : Nat) (outcome : Nat → FetchOutcome) (s : Sys) : Nat × Phase → Sys
  | (i, .check) => stepCheck t s i
  | (i, .complete) => stepComplete t outcome s i

/-- Run a schedule of phase events from an initial shared state. -/
def runSys (t : Nat) (outcome : Nat → FetchOutcome) (init : Option CacheEntry)
    (sched : List (Nat × Phase)) : Sys :=
  sched.foldl (stepSys t outcome) { cache := init, inflight := [], fetchCount := 0, results := [] }

/-- The schedule in which all of the callers 0..n-1 run their cache
checks before any fetch settles — the canonical "N simultaneous calls
against a stale/empty cache" interleaving. -/
def checksFirst (n : Nat) : List (Nat × Phase) :=
  ((List.range n).map (fun i => (i, Phase.check))) ++
    ((List.range n).map (fun i => (i, Phase.complete)))

/-- Test for the JSON `null` value. -/
def isNullB : JValue → Bool
  | .jnull => true
  | _ => false

/-- Whether an element's `event_log` property is an array containing a
`null` entry (which makes the normalizer's inner map throw). -/
def logBadB (v : JValue) : Bool :=
  match rawPropNT v "event_log" with
  | some (.jarr xs) => xs.any isNullB
  | _ => false

/-- Whether normalizing this parsed-array element throws a `TypeError`:
the element itself is `null`, its `event_log` array contains `null`, or
one of its `impacted_services` values is `null`. -/
def eventBadB (v : JValue) : Bool :=
  isNullB v || logBadB v || (svcEntriesRaw v).any (fun kv => isNullB kv.2)

/-- The impacting test of the verdict engine, expressed directly on one
raw `impacted_services` value: what `impactingB` sees after the
normalizer's `|| ''` defaulting. -/
def rawImpactingB (sv : JValue) : Bool :=
  impactingB
    { service_name := propOrDefault sv "service_name" (.jstr "")
      current := propOrDefault sv "current" (.jstr "")
      max := propOrDefault sv "max" (.jstr "") }

/-- Degraded-condition over the raw parsed array, as the code computes
it: some event has an `impacted_services` entry with a truthy
`service_name` and a string `current` whose `parseInt` value is
positive. -/
def rawDegradedB (events : List JValue) : Bool :=
  events.any (fun v => (svcEntriesRaw v).any (fun kv => rawImpactingB kv.2))

/-- Degraded-condition over normalized events. -/
def normDegradedB (events : List NEvent) : Bool :=
  events.any (fun e => e.impacted_services.any (fun kv => impactingB kv.2))

/-- The claim's impacting condition, following its words only: the
entry's `current` field parses (base 10) to an integer strictly greater
than zero — with no condition on `service_name`.  Used to compare the
claimed invariant with the one the code implements. -/
def specCurrentPositive (sv : JValue) : Bool :=
  match rawPropNT sv "current" with
  | some (.jstr s) =>
      match jsParseInt s with
      | some m => decide (0 < m)
      | none => false
  | _ => false

/-- The claim's Degraded-condition over the raw parsed array. -/
def specDegradedB (events : List JValue) : Bool :=
  events.any (fun v => (svcEntriesRaw v).any (fun kv => specCurrentPositive kv.2))

/-- Payload with one impacted service whose `service_name` is missing
but whose `current` is the string "5". -/
def payloadNoName : String := "[\x7b\"impacted_services\":\x7b\"a\":\x7b\"current\":\"5\"\x7d\x7d\x7d]"

/-- The parsed form of `payloadNoName`. -/
def payloadNoNameEvents : List JValue :=
  [.jobj [("impacted_services", .jobj [("a", .jobj [("current", .jstr "5")])])]]

/-- The specification's boundary payload with one impacted service. -/
def payloadBoundary : String :=
  "[\x7b\"impacted_services\":\x7b\"a\":\x7b\"service_name\":\"S3\",\"current\":\"2\",\"max\":\"5\"\x7d\x7d\x7d]"

/-- Number of events a batch normalizes to (0 when normalization
throws). -/
def serializedLen (events : List JValue) : Nat :=
  match serializeEvents events with
  | .ok l => l.length
  | .error _ => 0

/-- The specification's boundary payload, parsed. -/
def boundaryEvents : List JValue :=
  [.jobj [("impacted_services", .jobj
    [("a", .jobj [("service_name", .jstr "S3"), ("current", .jstr "2"), ("max", .jstr "5")])])]]

/-- The specification's boundary payload, normalized. -/
def boundaryNE : List NEvent :=
  [{ date := .jstr "", arn := .jstr "", region_name := .jstr "", status := .jstr "",
     service := .jstr "", service_name := .jstr "", summary := .jstr "",
     event_log := [],
     impacted_services :=
       [("a", { service_name := .jstr "S3", current := .jstr "2", max := .jstr "5" })] }]

/-- Whether a cache state makes a `getStatus` call at time `t` take the
fetch path: the cache is empty, or its entry's age has reached
`CACHE_DURATION` (it is stale). -/
def staleOrEmpty (cache : Option CacheEntry) (t : Nat) : Bool :=
  match cache with
  | none => true
  | some c => !decide (t - c.timestamp < CACHE_DURATION)

/-- A concrete stale cache entry used to exercise the stale half of the
concurrency scenario (written at time 0, examined at time 50000). -/
def staleEntry : CacheEntry :=
  { status := Status.yes, lastUpdated := 0, details := "All AWS services operational",
    timestamp := 0 }

/-! ## Helper lemmas -/

/-- `Set.add` never empties the set. -/
theorem insertUniq_ne_nil (acc : List JValue) (x : JValue) : insertUniq acc x ≠ [] := by
  by_cases h : acc.contains x = true
  · cases acc with
    | nil => simp at h
    | cons a as => simp [insertUniq, h]
  · simp [insertUniq, h]

/-- De Morgan for `List.all` over a negated predicate. -/
theorem allNotAny (xs : List JValue) (p : JValue → Bool) :
    xs.all (fun x => !p x) = !xs.any p := by
  induction xs with
  | nil => rfl
  | cons x rest ih => simp [List.all_cons, List.any_cons, ih]

/-- De Morgan for `List.all` over a negated predicate, pair version. -/
theorem allNotAnyPair (xs : List (String × JValue)) (p : String × JValue → Bool) :
    xs.all (fun x => !p x) = !xs.any p := by
  induction xs with
  | nil => rfl
  | cons x rest ih => simp [List.all_cons, List.any_cons, ih]

/-- The inner set-building fold is empty exactly when the accumulator
was empty and no entry is impacting. -/
theorem collectEvent_eq_nil (l : List (String × NService)) (acc : List JValue) :
    (collectEvent acc l = []) ↔ (acc = [] ∧ l.all (fun kv => !impactingB kv.2) = true) := by
  induction l generalizing acc with
  | nil => simp [collectEvent]
  | cons kv rest ih =>
    obtain ⟨k, ns⟩ := kv
    by_cases h : impactingB ns = true
    · simp only [collectEvent, h, if_true]
      rw [ih]
      simp [insertUniq_ne_nil, h]
    · simp only [collectEvent]
      rw [if_neg (by simpa using h), ih]
      simp [h]

/-- The outer set-building fold is empty exactly when the accumulator
was empty and no event has an impacting entry. -/
theorem collectNames_eq_nil (es : List NEvent) (acc : List JValue) :
    (collectNames acc es = []) ↔
      (acc = [] ∧
        es.all (fun e => e.impacted_services.all (fun kv => !impactingB kv.2)) = true) := by
  induction es generalizing acc with
  | nil => simp [collectNames]
  | cons e rest ih =>
    simp only [collectNames]
    rw [ih, collectEvent_eq_nil]
    simp [and_assoc]

/-- The impacted-service set is inhabited exactly when some normalized
entry is impacting. -/
theorem impactedNames_ne_nil (es : List NEvent) :
    (impactedNames es ≠ []) ↔ normDegradedB es = true := by
  unfold impactedNames normDegradedB
  rw [Ne, collectNames_eq_nil]
  simp only [true_and, List.all_eq_true, List.any_eq_true, Bool.not_eq_true']
  push_neg
  simp [Bool.not_eq_false]

/-- Normalizing an `impacted_services` value preserves the impacting
test. -/
theorem normalizeService_impacting (sv : JValue) (ns : NService)
    (h : normalizeService sv = .ok ns) : impactingB ns = rawImpactingB sv := by
  cases sv <;> simp [normalizeService] at h <;> (subst h; rfl)

/-- Normalizing an entry list preserves existence of an impacting
entry. -/
theorem normalizeServices_any (l : List (String × JValue)) (nl : List (String × NService))
    (h : normalizeServices l = .ok nl) :
    nl.any (fun kv => impactingB kv.2) = l.any (fun kv => rawImpactingB kv.2) := by
  induction l generalizing nl with
  | nil =>
    simp [normalizeServices] at h
    subst h; simp
  | cons kv rest ih =>
    obtain ⟨k, sv⟩ := kv
    simp only [normalizeServices] at h
    cases hsv : normalizeService sv with
    | error e => rw [hsv] at h; simp at h
    | ok ns =>
      rw [hsv] at h
      cases hrest : normalizeServices rest with
      | error e => rw [hrest] at h; simp at h
      | ok nrest =>
        rw [hrest] at h
        simp only [Except.ok.injEq] at h
        subst h
        simp [List.any_cons, ih nrest hrest, normalizeService_impacting sv ns hsv]

/-- The normalization body preserves existence of an impacting entry. -/
theorem normalizeEventCore_impacting (v : JValue) (n : NEvent)
    (h : normalizeEventCore v = .ok n) :
    n.impacted_services.any (fun kv => impactingB kv.2) =
      (svcEntriesRaw v).any (fun kv => rawImpactingB kv.2) := by
  unfold normalizeEventCore at h
  cases hel : normalizeEventLog v with
  | error e => rw [hel] at h; simp at h
  | ok el =>
    rw [hel] at h
    cases hsv : normalizeServices (svcEntriesRaw v) with
    | error e => rw [hsv] at h; simp at h
    | ok isv =>
      rw [hsv] at h
      simp only [Except.ok.injEq] at h
      subst h
      simpa using normalizeServices_any _ _ hsv

/-- Event normalization preserves existence of an impacting entry. -/
theorem normalizeEvent_impacting (v : JValue) (n : NEvent)
    (h : normalizeEvent v = .ok n) :
    n.impacted_services.any (fun kv => impactingB kv.2) =
      (svcEntriesRaw v).any (fun kv => rawImpactingB kv.2) := by
  have hc : normalizeEventCore v = .ok n := by
    cases v <;> simp [normalizeEvent] at h <;> exact h
  exact normalizeEventCore_impacting v n hc

/-- Batch normalization preserves the Degraded condition. -/
theorem serializeEvents_degraded (events : List JValue) (ne : List NEvent)
    (h : serializeEvents events = .ok ne) : normDegradedB ne = rawDegradedB events := by
  induction events generalizing ne with
  | nil =>
    simp [serializeEvents] at h
    subst h; rfl
  | cons v vs ih =>
    simp only [serializeEvents] at h
    cases hv : normalizeEvent v with
    | error e => rw [hv] at h; simp at h
    | ok n =>
      rw [hv] at h
      cases hvs : serializeEvents vs with
      | error e => rw [hvs] at h; simp at h
      | ok ns =>
        rw [hvs] at h
        simp only [Except.ok.injEq] at h
        subst h
        simp [normDegradedB, rawDegradedB, List.any_cons] at ih ⊢
        rw [normalizeEvent_impacting v n hv, ih ns hvs]

/-- The verdict engine reports Degraded exactly when the impacted set
is inhabited. -/
theorem computeVerdict_status_no (ne : List NEvent) (now : Nat) :
    (computeVerdict ne now).status = Status.no ↔ normDegradedB ne = true := by
  unfold computeVerdict
  by_cases he : ne.isEmpty = true
  · have : ne = [] := by simpa [List.isEmpty_iff] using he
    subst this
    simp [normDegradedB]
  · simp only [he, if_false]
    by_cases hc : 0 < (impactedNames ne).length
    · simp only [hc, if_true]
      constructor
      · intro _
        exact (impactedNames_ne_nil ne).mp (by simpa [List.length_pos] using hc)
      · intro _; rfl
    · simp only [hc, if_false]
      constructor
      · intro hcontra
        simp at hcontra
      · intro hd
        exact absurd ((impactedNames_ne_nil ne).mpr hd)
          (by simpa [List.length_pos] using hc)

/-- Detail string of an Operational verdict. -/
theorem computeVerdict_details_yes (ne : List NEvent) (now : Nat)
    (h : (computeVerdict ne now).status = Status.yes) :
    (computeVerdict ne now).details = "All AWS services operational" := by
  unfold computeVerdict at h ⊢
  by_cases he : ne.isEmpty = true
  · simp [he]
  · simp only [he, if_false] at h ⊢
    by_cases hc : 0 < (impactedNames ne).length
    · simp [hc] at h
    · simp [hc]

/-- Detail string of a Degraded verdict. -/
theorem computeVerdict_details_no (ne : List NEvent) (now : Nat)
    (h : (computeVerdict ne now).status = Status.no) :
    (computeVerdict ne now).details =
      "AWS is experiencing issues - " ++ toString (impactedNames ne).length ++
        " service" ++ (if (impactedNames ne).length != 1 then "s" else "") ++ " impacted" := by
  unfold computeVerdict at h ⊢
  by_cases he : ne.isEmpty = true
  · simp [he] at h
  · simp only [he, if_false] at h ⊢
    by_cases hc : 0 < (impactedNames ne).length
    · simp [hc]
    · simp [hc] at h

/-- One `event_log` entry normalizes exactly when it is not `null`. -/
theorem normalizeLog_isOk (l : JValue) : (normalizeLog l).isOk = !isNullB l := by
  cases l <;> rfl

/-- An `event_log` array normalizes exactly when it has no `null`
entry. -/
theorem normalizeLogs_isOk (xs : List JValue) :
    (normalizeLogs xs).isOk = xs.all (fun l => !isNullB l) := by
  induction xs with
  | nil => rfl
  | cons l rest ih =>
    simp only [normalizeLogs, List.all_cons]
    rw [← normalizeLog_isOk l, ← ih]
    cases normalizeLog l <;> cases normalizeLogs rest <;> simp [Except.isOk, Except.toBool]

/-- One `impacted_services` value normalizes exactly when it is not
`null`. -/
theorem normalizeService_isOk (sv : JValue) : (normalizeService sv).isOk = !isNullB sv := by
  cases sv <;> rfl

/-- An entry list normalizes exactly when no value is `null`. -/
theorem normalizeServices_isOk (l : List (String × JValue)) :
    (normalizeServices l).isOk = l.all (fun kv => !isNullB kv.2) := by
  induction l with
  | nil => rfl
  | cons kv rest ih =>
    obtain ⟨k, sv⟩ := kv
    simp only [normalizeServices, List.all_cons]
    rw [← normalizeService_isOk sv, ← ih]
    cases normalizeService sv <;> cases normalizeServices rest <;>
      simp [Except.isOk, Except.toBool]

/-- The `event_log` stage of one element succeeds exactly when the
element's log array has no `null` entry. -/
theorem normalizeEventLog_isOk (v : JValue) : (normalizeEventLog v).isOk = !logBadB v := by
  unfold normalizeEventLog logBadB
  cases h : rawPropNT v "event_log" with
  | none => rfl
  | some w =>
    cases w with
    | jnull => rfl
    | jbool b => rfl
    | jnum n => rfl
    | jstr s => rfl
    | jobj fs => rfl
    | jarr xs =>
      rw [normalizeLogs_isOk]
      exact allNotAny xs isNullB

/-- The normalization body succeeds exactly when neither inner map hits
a `null`. -/
theorem normalizeEventCore_isOk (v : JValue) :
    (normalizeEventCore v).isOk =
      (!logBadB v && !(svcEntriesRaw v).any (fun kv => isNullB kv.2)) := by
  unfold normalizeEventCore
  rw [← normalizeEventLog_isOk v]
  have hs : (normalizeServices (svcEntriesRaw v)).isOk =
      !(svcEntriesRaw v).any (fun kv => isNullB kv.2) := by
    rw [normalizeServices_isOk]
    exact allNotAnyPair _ _
  rw [← hs]
  cases normalizeEventLog v <;> cases normalizeServices (svcEntriesRaw v) <;>
    simp [Except.isOk, Except.toBool]

/-- One element normalizes exactly when it is free of throwing
`null`s. -/
theorem normalizeEvent_isOk (v : JValue) : (normalizeEvent v).isOk = !eventBadB v := by
  cases v with
  | jnull => rfl
  | jbool b => simp [normalizeEvent, normalizeEventCore_isOk, eventBadB, isNullB, Bool.not_or]
  | jnum n => simp [normalizeEvent, normalizeEventCore_isOk, eventBadB, isNullB, Bool.not_or]
  | jstr s => simp [normalizeEvent, normalizeEventCore_isOk, eventBadB, isNullB, Bool.not_or]
  | jarr xs => simp [normalizeEvent, normalizeEventCore_isOk, eventBadB, isNullB, Bool.not_or]
  | jobj fs => simp [normalizeEvent, normalizeEventCore_isOk, eventBadB, isNullB, Bool.not_or]

/-- The batch normalizes exactly when every element is free of throwing
`null`s. -/
theorem serializeEvents_isOk (events : List JValue) :
    (serializeEvents events).isOk = events.all (fun v => !eventBadB v) := by
  induction events with
  | nil => rfl
  | cons v vs ih =>
    simp only [serializeEvents, List.all_cons]
    rw [← normalizeEvent_isOk v, ← ih]
    cases normalizeEvent v <;> cases serializeEvents vs <;> simp [Except.isOk, Except.toBool]

/-- A failing fetch cycle serves the cached verdict's fields. -/
theorem fetchFails_serves_cache (c : CacheEntry) (now : Nat) (outcome : FetchOutcome)
    (h : fetchCycleFails outcome = true) :
    fetchAWSHealthStatus (some c) outcome now =
      { status := c.status, lastUpdated := c.lastUpdated, details := c.details } := by
  cases outcome with
  | failure msg => rfl
  | success text =>
    have hred : fetchAWSHealthStatus (some c) (.success text) now =
        (match parseEventsArray text with
         | .error msg => fetchFallback (some c) msg now
         | .ok events =>
           match serializeEvents events with
           | .error msg => fetchFallback (some c) msg now
           | .ok ne => computeVerdict ne now) := rfl
    have hred2 : fetchCycleFails (.success text) =
        (match parseEventsArray text with
         | .error _ => true
         | .ok events => !(serializeEvents events).isOk) := rfl
    rw [hred2] at h
    rw [hred]
    cases hp : parseEventsArray text with
    | error msg => rfl
    | ok events =>
      have h3 : (!(serializeEvents events).isOk) = true := by
        rw [hp] at h
        exact h
      have hred3 : (match Except.ok events with
          | Except.error msg => fetchFallback (some c) msg now
          | Except.ok events =>
            match serializeEvents events with
            | Except.error msg => fetchFallback (some c) msg now
            | Except.ok ne => computeVerdict ne now) =
          (match serializeEvents events with
           | Except.error msg => fetchFallback (some c) msg now
           | Except.ok ne => computeVerdict ne now) := rfl
      rw [hred3]
      cases hs : serializeEvents events with
      | error msg => rfl
      | ok ne => simp [hs, Except.isOk, Except.toBool] at h3

/-- A call that fetched left the returned verdict in the cache, stamped
with the call's start time. -/
theorem getStatus_fetch_cache (st : Option CacheEntry) (now : Nat) (o : FetchOutcome)
    (h : (getStatus st now o).didFetch = true) :
    (getStatus st now o).cache = some
      { status := (getStatus st now o).resp.status,
        lastUpdated := (getStatus st now o).resp.lastUpdated,
        details := (getStatus st now o).resp.details,
        timestamp := now } := by
  cases st with
  | none => rfl
  | some c =>
    unfold getStatus at h ⊢
    by_cases hf : now - c.timestamp < CACHE_DURATION
    · simp [hf] at h
    · simp [hf]

/-- A call that finds a fresh cache serves it without fetching. -/
theorem getStatus_fresh (c : CacheEntry) (t : Nat) (o : FetchOutcome)
    (h : t - c.timestamp < CACHE_DURATION) :
    getStatus (some c) t o =
      { resp := { status := c.status, lastUpdated := c.lastUpdated, details := c.details },
        cache := some c, didFetch := false } := by
  unfold getStatus
  simp [h]

/-- A completion step never changes the fetch count. -/
theorem stepSys_complete_count (t : Nat) (outcome : Nat → FetchOutcome) (s : Sys) (i : Nat) :
    (stepSys t outcome s (i, Phase.complete)).fetchCount = s.fetchCount := by
  show (stepComplete t outcome s i).fetchCount = s.fetchCount
  unfold stepComplete
  split <;> rfl

/-- Folding completion steps never changes the fetch count. -/
theorem foldl_completes_count (t : Nat) (outcome : Nat → FetchOutcome) :
    ∀ (ids : List Nat) (s : Sys),
      ((ids.map (fun i => (i, Phase.complete))).foldl (stepSys t outcome) s).fetchCount =
        s.fetchCount := by
  intro ids
  induction ids with
  | nil => intro s; rfl
  | cons i rest ih =>
    intro s
    simp only [List.map_cons, List.foldl_cons]
    rw [ih, stepSys_complete_count]

/-- A check step against a stale-or-empty cache starts a fetch and
leaves the cache untouched. -/
theorem stepCheck_stale (t : Nat) (s : Sys) (i : Nat)
    (h : staleOrEmpty s.cache t = true) :
    stepCheck t s i =
      { s with inflight := i :: s.inflight, fetchCount := s.fetchCount + 1 } := by
  unfold stepCheck
  cases hc : s.cache with
  | none => rfl
  | some c =>
    unfold staleOrEmpty at h
    rw [hc] at h
    simp only [Bool.not_eq_true', decide_eq_false_iff_not] at h
    simp [h]

/-- Folding check steps over a stale-or-empty cache leaves the cache
untouched and starts one fetch per caller. -/
theorem foldl_checks_stale (t : Nat) (outcome : Nat → FetchOutcome) :
    ∀ (ids : List Nat) (s : Sys), staleOrEmpty s.cache t = true →
      ((ids.map (fun i => (i, Phase.check))).foldl (stepSys t outcome) s).cache = s.cache ∧
      ((ids.map (fun i => (i, Phase.check))).foldl (stepSys t outcome) s).fetchCount =
        s.fetchCount + ids.length := by
  intro ids
  induction ids with
  | nil => intro s h; exact ⟨rfl, rfl⟩
  | cons i rest ih =>
    intro s h
    simp only [List.map_cons, List.foldl_cons]
    have hstep : stepSys t outcome s (i, Phase.check) =
        { s with inflight := i :: s.inflight, fetchCount := s.fetchCount + 1 } :=
      stepCheck_stale t s i h
    rw [hstep]
    obtain ⟨h1, h2⟩ := ih { s with inflight := i :: s.inflight, fetchCount := s.fetchCount + 1 } h
    refine ⟨h1, ?_⟩
    rw [h2]
    simp only [List.length_cons]
    omega

/-! ## Claim theorems -/

/-- Claim C1, counterexample.  A payload with one `impacted_services`
entry whose `current` is "5" but whose `service_name` is missing
satisfies the claim's Degraded-condition, yet the forced non-cached
fetch cycle reports Operational: the code additionally requires a
truthy `service_name`, so the claimed equivalence fails. -/
theorem degradedNeedsServiceName_cex :
    parseEventsArray payloadNoName = .ok payloadNoNameEvents ∧
    ¬ ((fetchAWSHealthStatus none (.success payloadNoName) 0).status = Status.no ↔
        specDegradedB payloadNoNameEvents = true) :=
  ⟨rfl, by decide⟩

/-- Claim C1, amended.  For every payload that parses to a JSON array
and whose normalization does not throw, the forced non-cached fetch
cycle reports Degraded iff some event's `impacted_services` entry has a
truthy `service_name` and a string-valued `current` whose
`parseInt(·, 10)` value is strictly positive. -/
theorem degradedIffImpactedEntry (text : String) (events : List JValue) (ne : List NEvent)
    (now : Nat)
    (hp : parseEventsArray text = .ok events) (hn : serializeEvents events = .ok ne) :
    (fetchAWSHealthStatus none (.success text) now).status = Status.no ↔
      rawDegradedB events = true := by
  have hfetch : fetchAWSHealthStatus none (.success text) now = computeVerdict ne now := by
    simp [fetchAWSHealthStatus, hp, hn]
  rw [hfetch, computeVerdict_status_no, serializeEvents_degraded events ne hn]

/-- Witness for C1's amended theorem at the boundary payload. -/
theorem degradedIffImpactedEntry_witness :
    (fetchAWSHealthStatus none (.success payloadBoundary) 0).status = Status.no ↔
      rawDegradedB boundaryEvents = true :=
  degradedIffImpactedEntry payloadBoundary boundaryEvents boundaryNE 0 rfl rfl

/-- Claim C2, counterexample.  After a failed fetch with no prior
cache, the synthesized Unknown verdict IS stored in the cache: a second
call 5 seconds later performs no network fetch and serves that Unknown
from the cache, contrary to the claim. -/
theorem unknownNotCached_cex :
    (getStatus none 0 (.failure "fetch timeout")).resp.status = Status.unknown ∧
    (getStatus none 0 (.failure "fetch timeout")).cache ≠ none ∧
    (getStatus (getStatus none 0 (.failure "fetch timeout")).cache 5000
      (.failure "second error")).didFetch = false ∧
    (getStatus (getStatus none 0 (.failure "fetch timeout")).cache 5000
      (.failure "second error")).resp.status = Status.unknown := by
  refine ⟨rfl, ?_, rfl, rfl⟩
  decide

/-- Claim C2, amended.  A failed fetch with no prior cache returns
Unknown with the failure reason in the details, and that Unknown
verdict is cached with the call's start timestamp; calls within the
freshness window serve it without fetching, and only a call past the
window fetches again. -/
theorem unknownCachedAndServed (now : Nat) (msg : String) :
    (getStatus none now (.failure msg)).resp =
      { status := Status.unknown
        lastUpdated := now
        details := "Unable to fetch AWS health status: " ++ msg } ∧
    (getStatus none now (.failure msg)).cache =
      some { status := Status.unknown
             lastUpdated := now
             details := "Unable to fetch AWS health status: " ++ msg
             timestamp := now } ∧
    (∀ t2 o2, t2 - now < CACHE_DURATION →
      (getStatus (getStatus none now (.failure msg)).cache t2 o2).didFetch = false ∧
      (getStatus (getStatus none now (.failure msg)).cache t2 o2).resp.status =
        Status.unknown) ∧
    (∀ t2 o2, ¬ t2 - now < CACHE_DURATION →
      (getStatus (getStatus none now (.failure msg)).cache t2 o2).didFetch = true) := by
  refine ⟨rfl, rfl, fun t2 o2 h2 => ?_, fun t2 o2 h2 => ?_⟩
  · rw [show (getStatus none now (.failure msg)).cache =
        some (CacheEntry.mk Status.unknown now
          ("Unable to fetch AWS health status: " ++ msg) now) from rfl]
    rw [getStatus_fresh _ t2 o2 (by simpa using h2)]
    exact ⟨rfl, rfl⟩
  · rw [show (getStatus none now (.failure msg)).cache =
        some (CacheEntry.mk Status.unknown now
          ("Unable to fetch AWS health status: " ++ msg) now) from rfl]
    unfold getStatus
    simp [h2]

/-- Witness for C2's amended theorem at a concrete trace. -/
theorem unknownCachedAndServed_witness :
    (getStatus none 0 (.failure "timeout")).resp =
      { status := Status.unknown
        lastUpdated := 0
        details := "Unable to fetch AWS health status: " ++ "timeout" } ∧
    ((getStatus (getStatus none 0 (.failure "timeout")).cache 5 (.failure "again")).didFetch =
      false) ∧
    (getStatus (getStatus none 0 (.failure "timeout")).cache 20000 (.failure "again")).didFetch =
      true :=
  ⟨(unknownCachedAndServed 0 "timeout").1,
   ((unknownCachedAndServed 0 "timeout").2.2.1 5 (.failure "again") (by decide)).1,
   (unknownCachedAndServed 0 "timeout").2.2.2 20000 (.failure "again") (by decide)⟩

/-- Claim C3, confirmed.  Whenever a cached verdict exists and the next
fetch cycle fails at any stage (network failure, parse failure,
non-array payload, or normalization `TypeError`), `getStatus` returns a
verdict whose status, lastUpdated and details equal the cached ones. -/
theorem staleServedOnFailure (c : CacheEntry) (now : Nat) (outcome : FetchOutcome)
    (h : fetchCycleFails outcome = true) :
    (getStatus (some c) now outcome).resp =
      { status := c.status, lastUpdated := c.lastUpdated, details := c.details } := by
  unfold getStatus
  by_cases hf : now - c.timestamp < CACHE_DURATION
  · simp [hf]
  · simp [hf, fetchFails_serves_cache c now outcome h]

/-- Witness for C3 with a stale cache entry and a network failure. -/
theorem staleServedOnFailure_witness :
    (getStatus (some (CacheEntry.mk Status.yes 7 "cached" 0)) 99999 (.failure "boom")).resp =
      { status := Status.yes, lastUpdated := 7, details := "cached" } :=
  staleServedOnFailure _ 99999 (.failure "boom") rfl

/-- Claim C4, confirmed.  If the first call fetched (writing a cache
entry stamped with its start time), then any second call within the
10-second freshness window returns a verdict equal to the first call's
result in all fields and performs no network fetch — so the pair makes
at most one network call. -/
theorem freshCacheIdempotent (st0 : Option CacheEntry) (t1 t2 : Nat) (o1 o2 : FetchOutcome)
    (h1 : (getStatus st0 t1 o1).didFetch = true)
    (h2 : t2 - t1 < CACHE_DURATION) :
    (getStatus (getStatus st0 t1 o1).cache t2 o2).resp = (getStatus st0 t1 o1).resp ∧
    (getStatus (getStatus st0 t1 o1).cache t2 o2).didFetch = false := by
  rw [getStatus_fetch_cache st0 t1 o1 h1]
  rw [getStatus_fresh _ t2 o2 (by simpa using h2)]
  exact ⟨rfl, rfl⟩

/-- Witness for C4 at a concrete pair of calls. -/
theorem freshCacheIdempotent_witness :
    (getStatus (getStatus none 0 (.failure "err")).cache 1 (.success "[]")).resp =
      (getStatus none 0 (.failure "err")).resp ∧
    (getStatus (getStatus none 0 (.failure "err")).cache 1 (.success "[]")).didFetch = false :=
  freshCacheIdempotent none 0 1 (.failure "err") (.success "[]") rfl (by decide)

/-- Claim C5, counterexample.  On the specification's boundary payload
the verdict is Degraded but its details string is not
"1 service impacted", and on the empty array the details string is not
"All services operational": the code prefixes both strings. -/
theorem detailsStrings_cex :
    (fetchAWSHealthStatus none (.success payloadBoundary) 0).status = Status.no ∧
    (fetchAWSHealthStatus none (.success payloadBoundary) 0).details ≠ "1 service impacted" ∧
    (fetchAWSHealthStatus none (.success "[]") 0).details ≠ "All services operational" := by
  refine ⟨rfl, ?_, ?_⟩ <;> decide

/-- Claim C5, amended.  For every successfully acquired and normalized
event batch, an Operational verdict carries exactly
"All AWS services operational" and a Degraded verdict carries exactly
"AWS is experiencing issues - N service(s) impacted", pluralized on the
count N of distinct impacted service names. -/
theorem detailsStringsExact (text : String) (events : List JValue) (ne : List NEvent)
    (now : Nat)
    (hp : parseEventsArray text = .ok events) (hn : serializeEvents events = .ok ne) :
    ((fetchAWSHealthStatus none (.success text) now).status = Status.yes →
       (fetchAWSHealthStatus none (.success text) now).details =
         "All AWS services operational") ∧
    ((fetchAWSHealthStatus none (.success text) now).status = Status.no →
       (fetchAWSHealthStatus none (.success text) now).details =
         "AWS is experiencing issues - " ++ toString (impactedNames ne).length ++
           " service" ++ (if (impactedNames ne).length != 1 then "s" else "") ++ " impacted") := by
  have hfetch : fetchAWSHealthStatus none (.success text) now = computeVerdict ne now := by
    simp [fetchAWSHealthStatus, hp, hn]
  rw [hfetch]
  exact ⟨computeVerdict_details_yes ne now, computeVerdict_details_no ne now⟩

/-- Witness for C5's amended theorem: the boundary payload yields the
exact singular string. -/
theorem detailsStringsExact_witness :
    (fetchAWSHealthStatus none (.success payloadBoundary) 0).details =
      "AWS is experiencing issues - 1 service impacted" := by
  have h := (detailsStringsExact payloadBoundary boundaryEvents boundaryNE 0 rfl rfl).2 rfl
  exact h.trans rfl

/-- Claim C6, counterexample.  A `null` array element makes the
normalization stage throw (the batch fails), and a numeric element is
not dropped: it normalizes to one fully-defaulted event. -/
theorem normalizerDropsNonObjects_cex :
    (serializeEvents [JValue.jnull]).isOk = false ∧
    serializedLen [JValue.jnum 5] = 1 := by
  decide

/-- Claim C6, amended.  The normalization stage succeeds exactly when
no element is `null`, no element's `event_log` array contains `null`,
and no element's `impacted_services` value is `null`; non-`null`
non-object elements are coerced into fully-defaulted events rather than
dropped. -/
theorem normalizerThrowCharacterization (events : List JValue) :
    (serializeEvents events).isOk = events.all (fun v => !eventBadB v) :=
  serializeEvents_isOk events

/-- Claim C7, confirmed.  Normalizing the object with every field
missing yields the fully populated event whose string fields are all
`''` and whose containers are empty, and the construction succeeds. -/
theorem emptyRecordNormalizes :
    normalizeEvent (JValue.jobj []) = Except.ok
      { date := .jstr "", arn := .jstr "", region_name := .jstr "", status := .jstr "",
        service := .jstr "", service_name := .jstr "", summary := .jstr "",
        event_log := [], impacted_services := [] } := rfl

/-- Claim C8, counterexample.  On the input "[1] x" direct parsing
fails with a message that names no unrecognized token, so the code
fails immediately with the original message — even though the
first-bracket-to-last-bracket extraction the claim promises would have
parsed successfully. -/
theorem repairSequenceSkipped_cex :
    jsonParse "[1] x" =
      Except.error "Unexpected non-whitespace character after JSON data" ∧
    repairParse "[1] x" =
      Except.error
        "Failed to parse JSON: Unexpected non-whitespace character after JSON data" ∧
    extractArray "[1] x" = some "[1]" ∧
    jsonParse "[1]" = Except.ok (JValue.jarr [JValue.jnum 1]) :=
  ⟨rfl, rfl, rfl, rfl⟩

/-- Claim C8, amended.  When direct parsing fails: every failure of the
resilient parse carries the original error message; when the message
names no unrecognized token the parse fails immediately with that
message (no repair is attempted); and when it names a character, any
successful result comes either from reparsing with that character
removed everywhere or from parsing the first-`[`-to-last-`]`
substring. -/
theorem repairSequenceConditional (text msg : String)
    (h : jsonParse text = Except.error msg) :
    (∀ e, repairParse text = Except.error e → e = "Failed to parse JSON: " ++ msg) ∧
    (matchUnrecognized msg = none →
       repairParse text = Except.error ("Failed to parse JSON: " ++ msg)) ∧
    (∀ c, matchUnrecognized msg = some c → ∀ v, repairParse text = Except.ok v →
       jsonParse (removeChar text c) = Except.ok v ∨
         (∃ sub, extractArray text = some sub ∧ jsonParse sub = Except.ok v)) := by
  have hstep : repairParse text =
      (match matchUnrecognized msg with
       | some badChar =>
         (match jsonParse (removeChar text badChar) with
          | .ok v => .ok v
          | .error _ =>
            match extractArray text with
            | some sub =>
              (match jsonParse sub with
               | .ok v => .ok v
               | .error _ => .error ("Failed to parse JSON: " ++ msg))
            | none => .error ("Failed to parse JSON: " ++ msg))
       | none => .error ("Failed to parse JSON: " ++ msg)) := by
    unfold repairParse
    rw [h]
  refine ⟨?_, ?_, ?_⟩
  · intro e he
    rw [hstep] at he
    split at he
    · split at he
      · simp at he
      · split at he
        · split at he
          · simp at he
          · simpa using he.symm
        · simpa using he.symm
    · simpa using he.symm
  · intro hm
    rw [hstep, hm]
  · intro c hm v hv
    rw [hstep] at hv
    split at hv
    · rename_i badChar heq
      rw [hm] at heq
      injection heq with heq2
      subst heq2
      split at hv
      · rename_i w h2
        simp only [Except.ok.injEq] at hv
        subst hv
        exact Or.inl h2
      · rename_i e2 h2
        split at hv
        · rename_i sub hx
          split at hv
          · rename_i w h3
            simp only [Except.ok.injEq] at hv
            subst hv
            exact Or.inr ⟨sub, hx, h3⟩
          · simp at hv
        · simp at hv
    · rename_i heq
      rw [hm] at heq
      simp at heq

/-- Witness for C8's amended theorem on the input "x", whose parse
error does name an unrecognized token. -/
theorem repairSequenceConditional_witness :
    "Failed to parse JSON: Unrecognized token 'x'" =
      "Failed to parse JSON: " ++ "Unrecognized token 'x'" :=
  (repairSequenceConditional "x" "Unrecognized token 'x'" rfl).1 _ rfl

/-- Claim C9, counterexample.  Two simultaneous calls that both check
the cache before either fetch settles perform two network fetches, not
one — both from the empty cache and from a stale cache (entry written
at time 0, calls at time 50000): the handler has no mutual exclusion or
single-flight guard. -/
theorem singleFlight_cex :
    (runSys 0 (fun _ => .success "[]") none
      [(0, Phase.check), (1, Phase.check), (0, Phase.complete), (1, Phase.complete)]).fetchCount
        = 2 ∧
    (runSys 0 (fun _ => .success "[]") none
      [(0, Phase.check), (1, Phase.check), (0, Phase.complete), (1, Phase.complete)]).fetchCount
        ≠ 1 ∧
    (runSys 50000 (fun _ => .success "[]") (some staleEntry)
      [(0, Phase.check), (1, Phase.check), (0, Phase.complete), (1, Phase.complete)]).fetchCount
        = 2 ∧
    (runSys 50000 (fun _ => .success "[]") (some staleEntry)
      [(0, Phase.check), (1, Phase.check), (0, Phase.complete), (1, Phase.complete)]).fetchCount
        ≠ 1 := by
  refine ⟨rfl, ?_, rfl, ?_⟩ <;> decide

/-- Claim C9, amended.  For every stale-or-empty initial cache, in the
interleaving where all N simultaneous callers run their cache check
before any fetch settles, exactly N network fetches are performed — one
per caller. -/
theorem concurrentFetchPerCaller (n t : Nat) (outcome : Nat → FetchOutcome)
    (init : Option CacheEntry) (h : staleOrEmpty init t = true) :
    (runSys t outcome init (checksFirst n)).fetchCount = n := by
  unfold runSys checksFirst
  rw [List.foldl_append]
  rw [foldl_completes_count]
  have hh := foldl_checks_stale t outcome (List.range n)
    { cache := init, inflight := [], fetchCount := 0, results := [] } h
  rw [hh.2]
  simp

/-- Witness for C9's amended theorem: three callers against a concrete
stale cache entry perform three fetches. -/
theorem concurrentFetchPerCaller_witness :
    (runSys 50000 (fun _ => .failure "err") (some staleEntry) (checksFirst 3)).fetchCount = 3 :=
  concurrentFetchPerCaller 3 50000 (fun _ => .failure "err") (some staleEntry) (by decide)

/-- Claim C10, confirmed.  Every call that did not return from a
still-fresh cache unconditionally replaces the cache entry with the
returned verdict stamped with the call's start time — including when
the fetch cycle failed — and any call within the next freshness window
serves that entry without fetching. -/
theorem failureOutcomeCached (st : Option CacheEntry) (now : Nat) (o1 : FetchOutcome)
    (t2 : Nat) (o2 : FetchOutcome)
    (h : (getStatus st now o1).didFetch = true) :
    (getStatus st now o1).cache = some
      { status := (getStatus st now o1).resp.status,
        lastUpdated := (getStatus st now o1).resp.lastUpdated,
        details := (getStatus st now o1).resp.details,
        timestamp := now } ∧
    (t2 - now < CACHE_DURATION →
      (getStatus (getStatus st now o1).cache t2 o2).didFetch = false ∧
      (getStatus (getStatus st now o1).cache t2 o2).resp = (getStatus st now o1).resp) := by
  refine ⟨getStatus_fetch_cache st now o1 h, fun h2 => ?_⟩
  rw [getStatus_fetch_cache st now o1 h]
  rw [getStatus_fresh _ t2 o2 (by simpa using h2)]
  exact ⟨rfl, rfl⟩

/-- Witness for C10 on a failed first fetch. -/
theorem failureOutcomeCached_witness :
    (getStatus none 4 (.failure "timeout")).cache = some
      { status := (getStatus none 4 (.failure "timeout")).resp.status,
        lastUpdated := (getStatus none 4 (.failure "timeout")).resp.lastUpdated,
        details := (getStatus none 4 (.failure "timeout")).resp.details,
        timestamp := 4 } ∧
    ((getStatus (getStatus none 4 (.failure "timeout")).cache 9 (.success "[]")).didFetch = false ∧
      (getStatus (getStatus none 4 (.failure "timeout")).cache 9 (.success "[]")).resp =
        (getStatus none 4 (.failure "timeout")).resp) :=
  ⟨(failureOutcomeCached none 4 (.failure "timeout") 9 (.success "[]") rfl).1,
   (failureOutcomeCached none 4 (.failure "timeout") 9 (.success "[]") rfl).2 (by decide)⟩
